import Mathlib

/-
  Verification of the split-computation core of pay4
  (src/Application/pay4/services.py, function compute_split).

  Embedding notes.
  * Python Decimal values are modelled at the value level as rationals (ℚ).
    The development carries two renditions of the allocator pipeline.
    - The dec_* pipeline is faithful to the 28-significant-digit Decimal
      context: every +, * and / on Decimals rounds its exact result to 28
      significant digits with the context rounding ROUND_HALF_EVEN
      (roundSig below); this truncation is observable at receipt scale
      (27.38 / 12 = 2.281666666666666666666666667) and the cent-exactness
      claims are settled against this pipeline.
    - The plain pipeline performs the same steps in exact rational
      arithmetic.  It serves two purposes: it is the idealised reading of
      the spec's "exact decimal" arithmetic, used to state what the
      truncation-sensitive claims would assert of the exact values; and it
      hosts the precision-independent claims (empty/zero guards, the or-1
      quantity coercion, absent-key defaults, unknown-id tolerance,
      determinism, key order), whose content does not depend on where the
      28th digit falls.
  * quantize(D("0.01"), ROUND_HALF_UP) is quantize2HalfUp; a quantize with no
    explicit rounding argument uses the context default ROUND_HALF_EVEN and is
    quantize2HalfEven.  Multiplying or dividing a Decimal by 100 only shifts
    the exponent and never rounds, so to_cents and from_cents are exact; a
    quantize whose result coefficient would exceed the precision raises in
    Python, so the quantize steps are modelled by their value on the domain
    where the program returns at all.
  * Python dicts preserve insertion order; a dict is modelled as an
    association list, and the defaultdict accumulation
    user_sub[sel["user_email"]] += unit * qty is an upsert
    (update in place if the key exists, else append the freshly read
    default 0 plus v).
  * i.get("quantity", 1) is Option.getD; the additional `or 1` in the code
    maps a falsy value (0 or None) to 1 and appears in itemQty.
  * tax_rate / tip_rate reach the function as floats and are converted with
    D(str(rate or 0)); str of a float round-trips to an exact decimal, so the
    rates are modelled as the exact rationals they denote (with None/0.0
    modelled by the rational 0).
-/

namespace Pay4

/-- Python Decimal quantize to an integer with rounding=ROUND_HALF_UP:
nearest integer, ties away from zero. -/
def roundHalfUpInt (x : ℚ) : ℤ :=
  if 0 ≤ x then ⌊x + 1/2⌋ else -⌊-x + 1/2⌋

/-- Python Decimal quantize to an integer with the default context rounding
ROUND_HALF_EVEN: nearest integer, ties to the even neighbour. -/
def roundHalfEvenInt (x : ℚ) : ℤ :=
  if x - (⌊x⌋ : ℚ) < 1/2 then ⌊x⌋
  else if 1/2 < x - (⌊x⌋ : ℚ) then ⌊x⌋ + 1
  else if ⌊x⌋ % 2 = 0 then ⌊x⌋ else ⌊x⌋ + 1

/-- x.quantize(D("0.01"), rounding=ROUND_HALF_UP). -/
def quantize2HalfUp (x : ℚ) : ℚ := (roundHalfUpInt (x * 100) : ℚ) / 100

/-- x.quantize(D("0.01")) with the context default ROUND_HALF_EVEN. -/
def quantize2HalfEven (x : ℚ) : ℚ := (roundHalfEvenInt (x * 100) : ℚ) / 100

/-- services.py line 133: to_cents(x) = int((x * 100).quantize(D("1"),
rounding=ROUND_HALF_UP)). -/
def to_cents (x : ℚ) : ℤ := roundHalfUpInt (x * 100)

/-- services.py line 136: from_cents(c) = (D(c) / D(100)).quantize(D("0.01"))
(default rounding; the value is already exact at 2 decimal places). -/
def from_cents (c : ℤ) : ℚ := quantize2HalfEven ((c : ℚ) / 100)

/-- An entry of `items`: a dict {id, total_price, quantity}; total_price and
quantity are read with .get and may be absent. -/
structure LineItem where
  id : ℕ
  total_price : Option ℚ
  quantity : Option ℚ
deriving DecidableEq, Repr

/-- An entry of `selections`: a dict {user_email, item_id, quantity_selected};
quantity_selected is read with .get and may be absent. -/
structure Selection where
  user_email : String
  item_id : ℕ
  quantity_selected : Option ℚ
deriving DecidableEq, Repr

/-- One value of the result mapping: {"subtotal": D, "tax": D, "tip": D,
"total": D}. -/
structure UserShare where
  subtotal : ℚ
  tax : ℚ
  tip : ℚ
  total : ℚ
deriving DecidableEq, Repr

/-- services.py line 146: qty = D(str(i.get("quantity", 1) or 1)).
An absent quantity defaults to 1, and a falsy stored value (0 or None) is
also mapped to 1 by `or 1`. -/
def itemQty (i : LineItem) : ℚ :=
  if i.quantity.getD 1 = 0 then 1 else i.quantity.getD 1

/-- services.py line 148: per_unit[i["id"]] =
(total_price / qty) if qty != 0 else D("0"), with
total_price = D(str(i.get("total_price", 0))). -/
def unit_cost (i : LineItem) : ℚ :=
  if itemQty i ≠ 0 then i.total_price.getD 0 / itemQty i else 0

/-- First-match lookup of an item id, returning its unit cost and defaulting
to 0. -/
def lookupUnit : List LineItem → ℕ → ℚ
  | [], _ => 0
  | i :: rest, iid => if i.id = iid then unit_cost i else lookupUnit rest iid

/-- The per_unit dict built on lines 144-148, read through
per_unit.get(item_id, D("0")) on line 155.  Dict assignment overwrites, so
for duplicate ids the last item in the list wins: first match in the
reversed list. -/
def per_unit (items : List LineItem) (iid : ℕ) : ℚ :=
  lookupUnit items.reverse iid

/-- services.py line 156: qty = D(str(sel.get("quantity_selected", 1))).
An absent quantity defaults to 1; an explicit 0 stays 0. -/
def selQty (s : Selection) : ℚ := s.quantity_selected.getD 1

/-- The amount one selection adds to its user's accumulator on line 157:
per_unit.get(sel["item_id"], D("0")) * qty. -/
def contrib (items : List LineItem) (s : Selection) : ℚ :=
  per_unit items s.item_id * selQty s

/-- Insertion-ordered dict update d[u] += v: if the key is present its value
is updated in place, otherwise (defaultdict) the key is appended with value
0 + v = v. -/
def upsert : List (String × ℚ) → String → ℚ → List (String × ℚ)
  | [], u, v => [(u, v)]
  | (k, w) :: rest, u, v =>
    if k = u then (k, w + v) :: rest else (k, w) :: upsert rest u v

/-- One iteration of the accumulation loop on lines 154-157. -/
def subStep (items : List LineItem) (acc : List (String × ℚ)) (s : Selection) :
    List (String × ℚ) :=
  upsert acc s.user_email (contrib items s)

/-- The user_sub defaultdict after the loop on lines 153-157, as an
insertion-ordered association list.  Its key list is the user_order of
line 170. -/
def user_sub (items : List LineItem) (sels : List Selection) :
    List (String × ℚ) :=
  sels.foldl (subStep items) []

/-- services.py line 159: total_sub = sum(user_sub.values(), D("0")). -/
def total_subtotal (items : List LineItem) (sels : List Selection) : ℚ :=
  ((user_sub items sels).map Prod.snd).sum

/-- services.py line 173: the per-user subtotal cents, in user_order:
to_cents(v.quantize(D("0.01"))) for each accumulated value v. -/
def sub_cents_list (items : List LineItem) (sels : List Selection) : List ℤ :=
  (user_sub items sels).map (fun p => to_cents (quantize2HalfEven p.2))

/-- services.py line 174: total_sub_cents = sum(sub_cents.values()) or 1. -/
def total_sub_cents (items : List LineItem) (sels : List Selection) : ℤ :=
  if (sub_cents_list items sels).sum = 0 then 1
  else (sub_cents_list items sels).sum

/-- Lines 164-165 and 176-177: the integer-cent total of one pool
(tax with rate = tax_rate, tip with rate = tip_rate):
to_cents((total_sub * D(str(rate or 0))).quantize(D("0.01"),
rounding=ROUND_HALF_UP)). -/
def pool_cents_total (items : List LineItem) (sels : List Selection)
    (rate : ℚ) : ℤ :=
  to_cents (quantize2HalfUp (total_subtotal items sels * rate))

/-- Lines 190-192: the cents a non-last user receives from a pool of totalC
cents: frac = Decimal(c) / Decimal(tsc);
int((Decimal(totalC) * frac).quantize(D("1"), rounding=ROUND_HALF_UP)). -/
def propShare (tsc totalC c : ℤ) : ℤ :=
  roundHalfUpInt ((totalC : ℚ) * ((c : ℚ) / (tsc : ℚ)))

/-- The allocation loop of lines 184-196 for one pool, carrying the running
sum of cents already allocated.  A non-last user receives
propShare tsc totalC c; the last user receives the residual
totalC - running. -/
def allocGo (tsc totalC : ℤ) : List ℤ → ℤ → List ℤ
  | [], _ => []
  | _ :: [], running => [totalC - running]
  | c :: c2 :: rest, running =>
    propShare tsc totalC c ::
      allocGo tsc totalC (c2 :: rest) (running + propShare tsc totalC c)

/-- The result-building loop of lines 199-204: walk user_order together with
the aligned cents lists and build each UserShare;
total = (subtotal + tax + tip).quantize(D("0.01")). -/
def assemble :
    List (String × ℚ) → List ℤ → List ℤ → List ℤ → List (String × UserShare)
  | (u, _) :: us, sc :: scs, tc :: tcs, pc :: pcs =>
    (u, { subtotal := from_cents sc
          tax := from_cents tc
          tip := from_cents pc
          total := quantize2HalfEven (from_cents sc + from_cents tc + from_cents pc) }) ::
      assemble us scs tcs pcs
  | _, _, _, _ => []

/-- services.py lines 115-206: compute_split.  The early returns are the
`if not items` check of line 140 and the `if total_sub == 0` check of
line 160; otherwise the result is the assembled list in user_order. -/
def compute_split (items : List LineItem) (selections : List Selection)
    (tax_rate tip_rate : ℚ) : List (String × UserShare) :=
  if items = [] then []
  else if total_subtotal items selections = 0 then []
  else
    assemble (user_sub items selections) (sub_cents_list items selections)
      (allocGo (total_sub_cents items selections)
        (pool_cents_total items selections tax_rate)
        (sub_cents_list items selections) 0)
      (allocGo (total_sub_cents items selections)
        (pool_cents_total items selections tip_rate)
        (sub_cents_list items selections) 0)

/-- First-appearance deduplication of a list of user identifiers: the key
order of an insertion-ordered dict whose keys are inserted in list order. -/
def dedupFirst (l : List String) : List String :=
  l.foldl (fun ks u => if u ∈ ks then ks else ks ++ [u]) []

/-- Rounding of a nonzero value to prec significant decimal digits with
ROUND_HALF_EVEN: the adjusted exponent of x is the integer log of |x| in
base 10, the least retained digit has weight 10 ^ (that - prec + 1), and
the value is rounded half-even at that quantum.  This is the value of every
Decimal +, * and / result under the default context
(precision 28, rounding ROUND_HALF_EVEN). -/
def roundSig (prec : ℕ) (x : ℚ) : ℚ :=
  if x = 0 then 0
  else
    (roundHalfEvenInt (x / 10 ^ (Int.log 10 |x| - prec + 1)) : ℚ)
      * 10 ^ (Int.log 10 |x| - prec + 1)

/-- Decimal addition under the default context: the exact sum rounded to 28
significant digits. -/
def decAdd (x y : ℚ) : ℚ := roundSig 28 (x + y)

/-- Decimal multiplication under the default context: the exact product
rounded to 28 significant digits. -/
def decMul (x y : ℚ) : ℚ := roundSig 28 (x * y)

/-- Decimal division under the default context: the exact quotient rounded
to 28 significant digits. -/
def decDiv (x y : ℚ) : ℚ := roundSig 28 (x / y)

/-- services.py line 148 with faithful Decimal division:
(total_price / qty) if qty != 0 else D("0"). -/
def dec_unit_cost (i : LineItem) : ℚ :=
  if itemQty i ≠ 0 then decDiv (i.total_price.getD 0) (itemQty i) else 0

/-- First-match lookup of an item id over the faithful unit costs. -/
def dec_lookupUnit : List LineItem → ℕ → ℚ
  | [], _ => 0
  | i :: rest, iid =>
    if i.id = iid then dec_unit_cost i else dec_lookupUnit rest iid

/-- The per_unit dict of lines 144-148 with faithful Decimal division; last
assignment wins for duplicate ids. -/
def dec_per_unit (items : List LineItem) (iid : ℕ) : ℚ :=
  dec_lookupUnit items.reverse iid

/-- Line 157 with faithful Decimal multiplication:
per_unit.get(sel["item_id"], D("0")) * qty. -/
def dec_contrib (items : List LineItem) (s : Selection) : ℚ :=
  decMul (dec_per_unit items s.item_id) (selQty s)

/-- Dict update d[u] += v with faithful Decimal addition; a missing key
reads the defaultdict default 0 first. -/
def dec_upsert : List (String × ℚ) → String → ℚ → List (String × ℚ)
  | [], u, v => [(u, decAdd 0 v)]
  | (k, w) :: rest, u, v =>
    if k = u then (k, decAdd w v) :: rest else (k, w) :: dec_upsert rest u v

/-- One iteration of the accumulation loop on lines 154-157, faithful. -/
def dec_subStep (items : List LineItem) (acc : List (String × ℚ))
    (s : Selection) : List (String × ℚ) :=
  dec_upsert acc s.user_email (dec_contrib items s)

/-- The user_sub defaultdict after the loop on lines 153-157, faithful. -/
def dec_user_sub (items : List LineItem) (sels : List Selection) :
    List (String × ℚ) :=
  sels.foldl (dec_subStep items) []

/-- Line 159 with faithful Decimal addition:
sum(user_sub.values(), D("0")) is a left fold of Decimal += over the values
in insertion order. -/
def dec_total_subtotal (items : List LineItem) (sels : List Selection) : ℚ :=
  ((dec_user_sub items sels).map Prod.snd).foldl decAdd 0

/-- Line 173 over the faithful accumulator values. -/
def dec_sub_cents_list (items : List LineItem) (sels : List Selection) :
    List ℤ :=
  (dec_user_sub items sels).map (fun p => to_cents (quantize2HalfEven p.2))

/-- Line 174: total_sub_cents = sum(sub_cents.values()) or 1 (Python int
arithmetic, exact). -/
def dec_total_sub_cents (items : List LineItem) (sels : List Selection) : ℤ :=
  if (dec_sub_cents_list items sels).sum = 0 then 1
  else (dec_sub_cents_list items sels).sum

/-- Lines 164-165 and 176-177 with faithful Decimal multiplication:
to_cents((total_sub * D(str(rate or 0))).quantize(D("0.01"),
rounding=ROUND_HALF_UP)). -/
def dec_pool_cents_total (items : List LineItem) (sels : List Selection)
    (rate : ℚ) : ℤ :=
  to_cents (quantize2HalfUp (decMul (dec_total_subtotal items sels) rate))

/-- Lines 190-192 with faithful Decimal division and multiplication:
frac = Decimal(c) / Decimal(tsc);
int((Decimal(totalC) * frac).quantize(D("1"), rounding=ROUND_HALF_UP)). -/
def dec_propShare (tsc totalC c : ℤ) : ℤ :=
  roundHalfUpInt (decMul (totalC : ℚ) (decDiv (c : ℚ) (tsc : ℚ)))

/-- The allocation loop of lines 184-196 over the faithful shares. -/
def dec_allocGo (tsc totalC : ℤ) : List ℤ → ℤ → List ℤ
  | [], _ => []
  | _ :: [], running => [totalC - running]
  | c :: c2 :: rest, running =>
    dec_propShare tsc totalC c ::
      dec_allocGo tsc totalC (c2 :: rest) (running + dec_propShare tsc totalC c)

/-- services.py lines 115-206, faithful to the 28-digit Decimal context in
every per-item division, per-selection multiplication, accumulator
addition, total accumulation, pool multiplication and proportional-share
division; the guards and the cent-level assembly are as in compute_split. -/
def dec_compute_split (items : List LineItem) (selections : List Selection)
    (tax_rate tip_rate : ℚ) : List (String × UserShare) :=
  if items = [] then []
  else if dec_total_subtotal items selections = 0 then []
  else
    assemble (dec_user_sub items selections)
      (dec_sub_cents_list items selections)
      (dec_allocGo (dec_total_sub_cents items selections)
        (dec_pool_cents_total items selections tax_rate)
        (dec_sub_cents_list items selections) 0)
      (dec_allocGo (dec_total_sub_cents items selections)
        (dec_pool_cents_total items selections tip_rate)
        (dec_sub_cents_list items selections) 0)

/-- Half-up rounding of a value that is already an integer is the identity. -/
theorem roundHalfUpInt_intCast (n : ℤ) : roundHalfUpInt (n : ℚ) = n := by
  unfold roundHalfUpInt
  by_cases h : 0 ≤ (n : ℚ)
  · rw [if_pos h, add_comm, Int.floor_add_int]
    norm_num
  · rw [if_neg h]
    have hcast : -(n : ℚ) = ((-n : ℤ) : ℚ) := by push_cast; ring
    rw [hcast, add_comm, Int.floor_add_int]
    norm_num

/-- Half-even rounding of a value that is already an integer is the identity. -/
theorem roundHalfEvenInt_intCast (n : ℤ) : roundHalfEvenInt (n : ℚ) = n := by
  unfold roundHalfEvenInt
  rw [Int.floor_intCast]
  norm_num

/-- Quantizing an exact multiple of 0.01 changes nothing. -/
theorem quantize2HalfEven_cents (n : ℤ) :
    quantize2HalfEven ((n : ℚ) / 100) = (n : ℚ) / 100 := by
  unfold quantize2HalfEven
  rw [div_mul_cancel₀ _ (by norm_num : (100 : ℚ) ≠ 0), roundHalfEvenInt_intCast]

/-- to_cents after a half-even quantize to 2 decimal places is half-even
rounding of the value in cents. -/
theorem to_cents_quantize2HalfEven (x : ℚ) :
    to_cents (quantize2HalfEven x) = roundHalfEvenInt (x * 100) := by
  unfold to_cents quantize2HalfEven
  rw [div_mul_cancel₀ _ (by norm_num : (100 : ℚ) ≠ 0), roundHalfUpInt_intCast]

/-- to_cents after a half-up quantize to 2 decimal places is half-up rounding
of the value in cents. -/
theorem to_cents_quantize2HalfUp (x : ℚ) :
    to_cents (quantize2HalfUp x) = roundHalfUpInt (x * 100) := by
  unfold to_cents quantize2HalfUp
  rw [div_mul_cancel₀ _ (by norm_num : (100 : ℚ) ≠ 0), roundHalfUpInt_intCast]

/-- from_cents is exact division by 100. -/
theorem from_cents_eq (c : ℤ) : from_cents c = (c : ℚ) / 100 := by
  unfold from_cents
  exact quantize2HalfEven_cents c

/-- Summing a list of cent values converted by from_cents is the converted
sum. -/
theorem sum_map_from_cents (l : List ℤ) :
    (l.map from_cents).sum = ((l.sum : ℤ) : ℚ) / 100 := by
  induction l with
  | nil => simp
  | cons c l ih =>
    simp only [List.map_cons, List.sum_cons, ih, from_cents_eq]
    push_cast
    ring

/-- A dict update d[u] += v raises the sum of the stored values by v. -/
theorem upsert_map_snd_sum (acc : List (String × ℚ)) (u : String) (v : ℚ) :
    ((upsert acc u v).map Prod.snd).sum = (acc.map Prod.snd).sum + v := by
  induction acc with
  | nil => simp [upsert]
  | cons p rest ih =>
    obtain ⟨k, w⟩ := p
    by_cases h : k = u
    · simp only [upsert, if_pos h, List.map_cons, List.sum_cons]
      ring
    · simp only [upsert, if_neg h, List.map_cons, List.sum_cons, ih]
      ring

/-- A dict update d[u] += v leaves the key order unchanged if u is present
and appends u otherwise. -/
theorem upsert_map_fst (acc : List (String × ℚ)) (u : String) (v : ℚ) :
    (upsert acc u v).map Prod.fst =
      if u ∈ acc.map Prod.fst then acc.map Prod.fst
      else acc.map Prod.fst ++ [u] := by
  induction acc with
  | nil => simp [upsert]
  | cons p rest ih =>
    obtain ⟨k, w⟩ := p
    by_cases h : k = u
    · subst h
      simp [upsert]
    · simp only [upsert, if_neg h, List.map_cons, ih, List.mem_cons]
      have hne : ¬ u = k := fun e => h e.symm
      by_cases hm : u ∈ rest.map Prod.fst
      · simp [hm, hne]
      · simp [hm, hne]

/-- Folding the accumulation step over selections adds the sum of all
contributions to the sum of the stored values. -/
theorem foldl_subStep_sum (items : List LineItem) (sels : List Selection) :
    ∀ acc : List (String × ℚ),
      ((sels.foldl (subStep items) acc).map Prod.snd).sum
        = (acc.map Prod.snd).sum + (sels.map (contrib items)).sum := by
  induction sels with
  | nil => intro acc; simp
  | cons s sels ih =>
    intro acc
    simp only [List.foldl_cons, List.map_cons, List.sum_cons]
    rw [ih, subStep, upsert_map_snd_sum]
    ring

/-- The exact total subtotal is the sum of the contributions of all
selections. -/
theorem total_subtotal_eq_sum_contrib (items : List LineItem)
    (sels : List Selection) :
    total_subtotal items sels = (sels.map (contrib items)).sum := by
  unfold total_subtotal user_sub
  rw [foldl_subStep_sum]
  simp

/-- With no items, every selection looks up an unknown id and contributes
zero. -/
theorem contrib_nil (s : Selection) : contrib [] s = 0 := by
  simp [contrib, per_unit, lookupUnit]

/-- With no items the total subtotal is zero. -/
theorem total_subtotal_nil (sels : List Selection) :
    total_subtotal [] sels = 0 := by
  rw [total_subtotal_eq_sum_contrib]
  induction sels with
  | nil => simp
  | cons s sels ih => simp [contrib_nil, ih]

/-- A nonzero total subtotal forces a nonempty items list. -/
theorem items_ne_nil_of_total (items : List LineItem) (sels : List Selection)
    (h : total_subtotal items sels ≠ 0) : items ≠ [] := by
  intro e
  subst e
  exact h (total_subtotal_nil sels)

/-- A nonzero total subtotal forces a nonempty accumulator. -/
theorem user_sub_ne_nil (items : List LineItem) (sels : List Selection)
    (h : total_subtotal items sels ≠ 0) : user_sub items sels ≠ [] := by
  intro e
  apply h
  unfold total_subtotal
  rw [e]
  simp

/-- The key list built by the accumulation fold is first-appearance
deduplication of the user emails, for any starting accumulator. -/
theorem foldl_subStep_keys (items : List LineItem) (sels : List Selection) :
    ∀ acc : List (String × ℚ),
      ((sels.foldl (subStep items) acc).map Prod.fst)
        = (sels.map Selection.user_email).foldl
            (fun ks u => if u ∈ ks then ks else ks ++ [u])
            (acc.map Prod.fst) := by
  induction sels with
  | nil => intro acc; simp
  | cons s sels ih =>
    intro acc
    simp only [List.foldl_cons, List.map_cons]
    rw [ih, subStep, upsert_map_fst]

/-- The key order of user_sub is the first-appearance order of the user
emails in the selections. -/
theorem user_sub_map_fst (items : List LineItem) (sels : List Selection) :
    (user_sub items sels).map Prod.fst
      = dedupFirst (sels.map Selection.user_email) := by
  unfold user_sub dedupFirst
  rw [foldl_subStep_keys]
  simp

/-- The allocation loop produces one cent amount per user. -/
theorem allocGo_length (tsc tc : ℤ) :
    ∀ (cs : List ℤ) (r : ℤ), (allocGo tsc tc cs r).length = cs.length
  | [], _ => by simp [allocGo]
  | [_], _ => by simp [allocGo]
  | c :: c2 :: rest, r => by
    simp only [allocGo, List.length_cons]
    rw [allocGo_length tsc tc (c2 :: rest) _]
    simp

/-- Closed form of the allocation loop: every user but the last receives the
half-up rounded proportional share, and the last receives the residual of the
pool total against the running sum. -/
theorem allocGo_closed (tsc tc : ℤ) :
    ∀ (cs : List ℤ) (r : ℤ), cs ≠ [] →
      allocGo tsc tc cs r
        = (cs.dropLast.map (propShare tsc tc))
          ++ [tc - r - ((cs.dropLast.map (propShare tsc tc)).sum)]
  | [], _, h => absurd rfl h
  | [c], r, _ => by
    show allocGo tsc tc [c] r = _
    simp [allocGo, List.dropLast_single]
  | c :: c2 :: rest, r, _ => by
    simp only [allocGo]
    rw [allocGo_closed tsc tc (c2 :: rest) _ (by simp)]
    have hdl : (c :: c2 :: rest).dropLast = c :: (c2 :: rest).dropLast := rfl
    rw [hdl]
    simp only [List.map_cons, List.sum_cons, List.cons_append]
    have harith : tc - (r + propShare tsc tc c)
          - (List.map (propShare tsc tc) (c2 :: rest).dropLast).sum
        = tc - r
          - (propShare tsc tc c
             + (List.map (propShare tsc tc) (c2 :: rest).dropLast).sum) := by
      omega
    rw [harith]

/-- The allocated cents of one pool sum exactly to the pool total minus the
initial running sum. -/
theorem allocGo_sum (tsc tc : ℤ) (cs : List ℤ) (r : ℤ) (h : cs ≠ []) :
    (allocGo tsc tc cs r).sum = tc - r := by
  rw [allocGo_closed tsc tc cs r h]
  simp [List.sum_append]

/-- Assembling over an empty user order gives the empty result. -/
theorem assemble_nil (scs tcs pcs : List ℤ) : assemble [] scs tcs pcs = [] := by
  cases scs <;> cases tcs <;> cases pcs <;> rfl

/-- The keys of the assembled result are the user order. -/
theorem assemble_map_fst (us : List (String × ℚ)) :
    ∀ scs tcs pcs : List ℤ,
      us.length = scs.length → us.length = tcs.length → us.length = pcs.length →
      (assemble us scs tcs pcs).map Prod.fst = us.map Prod.fst := by
  induction us with
  | nil =>
    intro scs tcs pcs _ _ _
    rw [assemble_nil]
    rfl
  | cons p us ih =>
    intro scs tcs pcs h1 h2 h3
    obtain ⟨u, w⟩ := p
    cases scs with
    | nil => simp at h1
    | cons sc scs =>
      cases tcs with
      | nil => simp at h2
      | cons tc tcs =>
        cases pcs with
        | nil => simp at h3
        | cons pc pcs =>
          simp only [assemble, List.map_cons]
          rw [ih scs tcs pcs (by simpa using h1) (by simpa using h2)
            (by simpa using h3)]

/-- The subtotal fields of the assembled result are the converted subtotal
cents. -/
theorem assemble_map_subtotal (us : List (String × ℚ)) :
    ∀ scs tcs pcs : List ℤ,
      us.length = scs.length → us.length = tcs.length → us.length = pcs.length →
      (assemble us scs tcs pcs).map (fun p => p.2.subtotal)
        = scs.map from_cents := by
  induction us with
  | nil =>
    intro scs tcs pcs h1 _ _
    have hscs : scs = [] := by
      cases scs with
      | nil => rfl
      | cons a l => simp at h1
    subst hscs
    rw [assemble_nil]
    rfl
  | cons p us ih =>
    intro scs tcs pcs h1 h2 h3
    obtain ⟨u, w⟩ := p
    cases scs with
    | nil => simp at h1
    | cons sc scs =>
      cases tcs with
      | nil => simp at h2
      | cons tc tcs =>
        cases pcs with
        | nil => simp at h3
        | cons pc pcs =>
          simp only [assemble, List.map_cons]
          rw [ih scs tcs pcs (by simpa using h1) (by simpa using h2)
            (by simpa using h3)]

/-- The tax fields of the assembled result are the converted tax cents. -/
theorem assemble_map_tax (us : List (String × ℚ)) :
    ∀ scs tcs pcs : List ℤ,
      us.length = scs.length → us.length = tcs.length → us.length = pcs.length →
      (assemble us scs tcs pcs).map (fun p => p.2.tax) = tcs.map from_cents := by
  induction us with
  | nil =>
    intro scs tcs pcs _ h2 _
    have htcs : tcs = [] := by
      cases tcs with
      | nil => rfl
      | cons a l => simp at h2
    subst htcs
    rw [assemble_nil]
    rfl
  | cons p us ih =>
    intro scs tcs pcs h1 h2 h3
    obtain ⟨u, w⟩ := p
    cases scs with
    | nil => simp at h1
    | cons sc scs =>
      cases tcs with
      | nil => simp at h2
      | cons tc tcs =>
        cases pcs with
        | nil => simp at h3
        | cons pc pcs =>
          simp only [assemble, List.map_cons]
          rw [ih scs tcs pcs (by simpa using h1) (by simpa using h2)
            (by simpa using h3)]

/-- The tip fields of the assembled result are the converted tip cents. -/
theorem assemble_map_tip (us : List (String × ℚ)) :
    ∀ scs tcs pcs : List ℤ,
      us.length = scs.length → us.length = tcs.length → us.length = pcs.length →
      (assemble us scs tcs pcs).map (fun p => p.2.tip) = pcs.map from_cents := by
  induction us with
  | nil =>
    intro scs tcs pcs _ _ h3
    have hpcs : pcs = [] := by
      cases pcs with
      | nil => rfl
      | cons a l => simp at h3
    subst hpcs
    rw [assemble_nil]
    rfl
  | cons p us ih =>
    intro scs tcs pcs h1 h2 h3
    obtain ⟨u, w⟩ := p
    cases scs with
    | nil => simp at h1
    | cons sc scs =>
      cases tcs with
      | nil => simp at h2
      | cons tc tcs =>
        cases pcs with
        | nil => simp at h3
        | cons pc pcs =>
          simp only [assemble, List.map_cons]
          rw [ih scs tcs pcs (by simpa using h1) (by simpa using h2)
            (by simpa using h3)]

/-- Each total field is the exact sum of its three cent components. -/
theorem total_entry_eq (sc tc pc : ℤ) :
    quantize2HalfEven (from_cents sc + from_cents tc + from_cents pc)
      = ((sc + tc + pc : ℤ) : ℚ) / 100 := by
  rw [from_cents_eq, from_cents_eq, from_cents_eq]
  have hsum : (sc : ℚ) / 100 + (tc : ℚ) / 100 + (pc : ℚ) / 100
      = ((sc + tc + pc : ℤ) : ℚ) / 100 := by
    push_cast
    ring
  rw [hsum, quantize2HalfEven_cents]

/-- The total fields of the assembled result sum to the converted sum of all
three cents pools. -/
theorem assemble_total_sum (us : List (String × ℚ)) :
    ∀ scs tcs pcs : List ℤ,
      us.length = scs.length → us.length = tcs.length → us.length = pcs.length →
      ((assemble us scs tcs pcs).map (fun p => p.2.total)).sum
        = ((scs.sum + tcs.sum + pcs.sum : ℤ) : ℚ) / 100 := by
  induction us with
  | nil =>
    intro scs tcs pcs h1 h2 h3
    have hscs : scs = [] := by
      cases scs with
      | nil => rfl
      | cons a l => simp at h1
    have htcs : tcs = [] := by
      cases tcs with
      | nil => rfl
      | cons a l => simp at h2
    have hpcs : pcs = [] := by
      cases pcs with
      | nil => rfl
      | cons a l => simp at h3
    subst hscs
    subst htcs
    subst hpcs
    simp [assemble_nil]
  | cons p us ih =>
    intro scs tcs pcs h1 h2 h3
    obtain ⟨u, w⟩ := p
    cases scs with
    | nil => simp at h1
    | cons sc scs =>
      cases tcs with
      | nil => simp at h2
      | cons tc tcs =>
        cases pcs with
        | nil => simp at h3
        | cons pc pcs =>
          simp only [assemble, List.map_cons, List.sum_cons]
          rw [ih scs tcs pcs (by simpa using h1) (by simpa using h2)
            (by simpa using h3)]
          rw [total_entry_eq]
          push_cast
          ring

/-- Both early-return guards of compute_split. -/
theorem compute_split_eq_nil (items : List LineItem) (sels : List Selection)
    (tr pr : ℚ) (h : items = [] ∨ total_subtotal items sels = 0) :
    compute_split items sels tr pr = [] := by
  unfold compute_split
  rcases h with h | h
  · rw [if_pos h]
  · by_cases hi : items = []
    · rw [if_pos hi]
    · rw [if_neg hi, if_pos h]

/-- Past both guards, compute_split is the assembled allocation. -/
theorem compute_split_pos (items : List LineItem) (sels : List Selection)
    (tr pr : ℚ) (h1 : items ≠ []) (h2 : total_subtotal items sels ≠ 0) :
    compute_split items sels tr pr
      = assemble (user_sub items sels) (sub_cents_list items sels)
          (allocGo (total_sub_cents items sels) (pool_cents_total items sels tr)
            (sub_cents_list items sels) 0)
          (allocGo (total_sub_cents items sels) (pool_cents_total items sels pr)
            (sub_cents_list items sels) 0) := by
  unfold compute_split
  rw [if_neg h1, if_neg h2]

/-- There are as many subtotal cent values as users. -/
theorem sub_cents_list_length (items : List LineItem) (sels : List Selection) :
    (user_sub items sels).length = (sub_cents_list items sels).length := by
  simp [sub_cents_list]

/-- A nonzero total subtotal gives a nonempty cents list. -/
theorem sub_cents_list_ne_nil (items : List LineItem) (sels : List Selection)
    (h : total_subtotal items sels ≠ 0) : sub_cents_list items sels ≠ [] := by
  intro e
  apply user_sub_ne_nil items sels h
  unfold sub_cents_list at e
  exact List.map_eq_nil_iff.mp e

/-- The tax fields of the result are the converted tax-pool allocation. -/
theorem compute_split_map_tax (items : List LineItem) (sels : List Selection)
    (tr pr : ℚ) (h : total_subtotal items sels ≠ 0) :
    (compute_split items sels tr pr).map (fun p => p.2.tax)
      = (allocGo (total_sub_cents items sels) (pool_cents_total items sels tr)
          (sub_cents_list items sels) 0).map from_cents := by
  rw [compute_split_pos items sels tr pr (items_ne_nil_of_total items sels h) h]
  exact assemble_map_tax _ _ _ _ (sub_cents_list_length items sels)
    (by rw [allocGo_length]; exact sub_cents_list_length items sels)
    (by rw [allocGo_length]; exact sub_cents_list_length items sels)

/-- The tip fields of the result are the converted tip-pool allocation. -/
theorem compute_split_map_tip (items : List LineItem) (sels : List Selection)
    (tr pr : ℚ) (h : total_subtotal items sels ≠ 0) :
    (compute_split items sels tr pr).map (fun p => p.2.tip)
      = (allocGo (total_sub_cents items sels) (pool_cents_total items sels pr)
          (sub_cents_list items sels) 0).map from_cents := by
  rw [compute_split_pos items sels tr pr (items_ne_nil_of_total items sels h) h]
  exact assemble_map_tip _ _ _ _ (sub_cents_list_length items sels)
    (by rw [allocGo_length]; exact sub_cents_list_length items sels)
    (by rw [allocGo_length]; exact sub_cents_list_length items sels)

/-- The pool total in cents is half-up rounding of subtotal times rate, in
cents. -/
theorem pool_cents_total_eq (items : List LineItem) (sels : List Selection)
    (rate : ℚ) :
    pool_cents_total items sels rate
      = roundHalfUpInt (total_subtotal items sels * rate * 100) := by
  unfold pool_cents_total
  rw [to_cents_quantize2HalfUp]

/-- The tax fields of the result sum exactly to the half-up rounded tax
total. -/
theorem compute_split_tax_sum (items : List LineItem) (sels : List Selection)
    (tr pr : ℚ) (h : total_subtotal items sels ≠ 0) :
    ((compute_split items sels tr pr).map (fun p => p.2.tax)).sum
      = quantize2HalfUp (total_subtotal items sels * tr) := by
  rw [compute_split_map_tax items sels tr pr h, sum_map_from_cents,
    allocGo_sum _ _ _ _ (sub_cents_list_ne_nil items sels h),
    pool_cents_total_eq]
  unfold quantize2HalfUp
  norm_num

/-- The tip fields of the result sum exactly to the half-up rounded tip
total. -/
theorem compute_split_tip_sum (items : List LineItem) (sels : List Selection)
    (tr pr : ℚ) (h : total_subtotal items sels ≠ 0) :
    ((compute_split items sels tr pr).map (fun p => p.2.tip)).sum
      = quantize2HalfUp (total_subtotal items sels * pr) := by
  rw [compute_split_map_tip items sels tr pr h, sum_map_from_cents,
    allocGo_sum _ _ _ _ (sub_cents_list_ne_nil items sels h),
    pool_cents_total_eq]
  unfold quantize2HalfUp
  norm_num

/-- The subtotal fields of the result are the half-even rounded per-user
accumulated subtotals, in user order. -/
theorem compute_split_map_subtotal (items : List LineItem)
    (sels : List Selection) (tr pr : ℚ) (h : total_subtotal items sels ≠ 0) :
    (compute_split items sels tr pr).map (fun p => p.2.subtotal)
      = (user_sub items sels).map (fun p => quantize2HalfEven p.2) := by
  rw [compute_split_pos items sels tr pr (items_ne_nil_of_total items sels h) h,
    assemble_map_subtotal _ _ _ _ (sub_cents_list_length items sels)
      (by rw [allocGo_length]; exact sub_cents_list_length items sels)
      (by rw [allocGo_length]; exact sub_cents_list_length items sels)]
  unfold sub_cents_list
  rw [List.map_map]
  congr 1
  funext p
  simp only [Function.comp_apply]
  rw [to_cents_quantize2HalfEven, from_cents_eq]
  unfold quantize2HalfEven
  rfl

/-- The keys of the result are the user order. -/
theorem compute_split_map_fst (items : List LineItem) (sels : List Selection)
    (tr pr : ℚ) (h1 : items ≠ []) (h2 : total_subtotal items sels ≠ 0) :
    (compute_split items sels tr pr).map Prod.fst
      = dedupFirst (sels.map Selection.user_email) := by
  rw [compute_split_pos items sels tr pr h1 h2,
    assemble_map_fst _ _ _ _ (sub_cents_list_length items sels)
      (by rw [allocGo_length]; exact sub_cents_list_length items sels)
      (by rw [allocGo_length]; exact sub_cents_list_length items sels),
    user_sub_map_fst]

/-- Summing 2dp-half-even-rounded values equals summing their cent images
divided by 100. -/
theorem sum_quantize2HalfEven_generic (l : List ℚ) :
    (l.map quantize2HalfEven).sum
      = ((l.map (fun v => to_cents (quantize2HalfEven v))).sum : ℚ) / 100 := by
  induction l with
  | nil => simp
  | cons v l ih =>
    simp only [List.map_cons, List.sum_cons, ih]
    rw [to_cents_quantize2HalfEven,
      show quantize2HalfEven v = ((roundHalfEvenInt (v * 100) : ℤ) : ℚ) / 100
        from rfl]
    push_cast
    ring

/-- The sum of the 2dp-rounded per-user subtotals equals the subtotal cents
sum divided by 100. -/
theorem sum_quantize2HalfEven_eq (items : List LineItem)
    (sels : List Selection) :
    ((user_sub items sels).map (fun p => quantize2HalfEven p.2)).sum
      = ((sub_cents_list items sels).sum : ℚ) / 100 := by
  unfold sub_cents_list
  have h := sum_quantize2HalfEven_generic ((user_sub items sels).map Prod.snd)
  rw [List.map_map, List.map_map] at h
  simpa [Function.comp_def] using h

/-- The total fields of the result sum to the rounded per-user subtotals plus
the two rounded pools. -/
theorem compute_split_total_sum (items : List LineItem) (sels : List Selection)
    (tr pr : ℚ) (h : total_subtotal items sels ≠ 0) :
    ((compute_split items sels tr pr).map (fun p => p.2.total)).sum
      = ((user_sub items sels).map (fun p => quantize2HalfEven p.2)).sum
        + quantize2HalfUp (total_subtotal items sels * tr)
        + quantize2HalfUp (total_subtotal items sels * pr) := by
  rw [compute_split_pos items sels tr pr (items_ne_nil_of_total items sels h) h,
    assemble_total_sum _ _ _ _ (sub_cents_list_length items sels)
      (by rw [allocGo_length]; exact sub_cents_list_length items sels)
      (by rw [allocGo_length]; exact sub_cents_list_length items sels),
    allocGo_sum _ _ _ _ (sub_cents_list_ne_nil items sels h),
    allocGo_sum _ _ _ _ (sub_cents_list_ne_nil items sels h),
    sum_quantize2HalfEven_eq, pool_cents_total_eq, pool_cents_total_eq]
  unfold quantize2HalfUp
  push_cast
  ring

/-- Rounding the value zero to any precision gives zero. -/
theorem roundSig_zero (p : ℕ) : roundSig p 0 = 0 := by simp [roundSig]

/-- The integer base-10 logarithm is pinned by a power sandwich. -/
theorem int_log_eq_of (x : ℚ) (e : ℤ) (h0 : 0 < x) (h1 : (10:ℚ) ^ e ≤ x)
    (h2 : x < 10 ^ (e + 1)) : Int.log 10 x = e := by
  have ha : e ≤ Int.log 10 x := (Int.zpow_le_iff_le_log (by norm_num) h0).mp h1
  have hb : Int.log 10 x < e + 1 :=
    (Int.lt_zpow_iff_log_lt (by norm_num) h0).mp h2
  omega

/-- Evaluation form of roundSig on a positive value with known adjusted
exponent. -/
theorem roundSig_eval_pos (p : ℕ) (x : ℚ) (e : ℤ) (h0 : 0 < x)
    (h1 : (10:ℚ) ^ e ≤ x) (h2 : x < 10 ^ (e + 1)) :
    roundSig p x
      = (roundHalfEvenInt (x / 10 ^ (e - p + 1)) : ℚ) * 10 ^ (e - p + 1) := by
  have hx : x ≠ 0 := ne_of_gt h0
  have habs : |x| = x := abs_of_pos h0
  unfold roundSig
  rw [if_neg hx, habs, int_log_eq_of x e h0 h1 h2]

/-- A positive value already representable with p significant digits is a
fixed point of roundSig. -/
theorem roundSig_eq_self_pos (p : ℕ) (x : ℚ) (e n : ℤ) (h0 : 0 < x)
    (h1 : (10:ℚ) ^ e ≤ x) (h2 : x < 10 ^ (e + 1))
    (hn : x = (n : ℚ) * 10 ^ (e - p + 1)) :
    roundSig p x = x := by
  rw [roundSig_eval_pos p x e h0 h1 h2]
  have h10 : ((10:ℚ) ^ (e - (p:ℤ) + 1)) ≠ 0 := zpow_ne_zero _ (by norm_num)
  conv_lhs => rw [hn]
  rw [mul_div_cancel_right₀ _ h10, roundHalfEvenInt_intCast]
  exact hn.symm

/-- The value 0.5 is exact at 28 significant digits. -/
theorem rs_half : roundSig 28 ((1:ℚ)/2) = 1/2 :=
  roundSig_eq_self_pos 28 (1/2) (-1) (5 * 10 ^ 27) (by norm_num) (by norm_num)
    (by norm_num) (by norm_num)

/-- The value 0.25 is exact at 28 significant digits. -/
theorem rs_quarter : roundSig 28 ((1:ℚ)/4) = 1/4 :=
  roundSig_eq_self_pos 28 (1/4) (-1) (25 * 10 ^ 26) (by norm_num) (by norm_num)
    (by norm_num) (by norm_num)

/-- The value 0.125 is exact at 28 significant digits. -/
theorem rs_eighth : roundSig 28 ((1:ℚ)/8) = 1/8 :=
  roundSig_eq_self_pos 28 (1/8) (-1) (125 * 10 ^ 25) (by norm_num) (by norm_num)
    (by norm_num) (by norm_num)

/-- The value 2.5 is exact at 28 significant digits. -/
theorem rs_5_2 : roundSig 28 ((5:ℚ)/2) = 5/2 :=
  roundSig_eq_self_pos 28 (5/2) 0 (25 * 10 ^ 26) (by norm_num) (by norm_num)
    (by norm_num) (by norm_num)

/-- The value 5 is exact at 28 significant digits. -/
theorem rs_five : roundSig 28 (5:ℚ) = 5 :=
  roundSig_eq_self_pos 28 5 0 (5 * 10 ^ 27) (by norm_num) (by norm_num)
    (by norm_num) (by norm_num)

/-- The value 16.95 is exact at 28 significant digits. -/
theorem rs_1695 : roundSig 28 ((339:ℚ)/20) = 339/20 :=
  roundSig_eq_self_pos 28 (339/20) 1 (1695 * 10 ^ 24) (by norm_num)
    (by norm_num) (by norm_num) (by norm_num)

/-- The value 17.20 is exact at 28 significant digits. -/
theorem rs_172 : roundSig 28 ((86:ℚ)/5) = 86/5 :=
  roundSig_eq_self_pos 28 (86/5) 1 (172 * 10 ^ 25) (by norm_num) (by norm_num)
    (by norm_num) (by norm_num)

/-- The value 1.72 is exact at 28 significant digits. -/
theorem rs_43_25 : roundSig 28 ((43:ℚ)/25) = 43/25 :=
  roundSig_eq_self_pos 28 (43/25) 0 (172 * 10 ^ 25) (by norm_num) (by norm_num)
    (by norm_num) (by norm_num)

/-- Dividing 34.30 by 12 truncates at the 28th significant digit: the repeating third
is cut to ...333. -/
theorem rs_343_120 : roundSig 28 ((343:ℚ)/120)
    = 2858333333333333333333333333 / 1000000000000000000000000000 := by
  rw [roundSig_eval_pos 28 (343/120) 0 (by norm_num) (by norm_num) (by norm_num)]
  norm_num [roundHalfEvenInt]

/-- The truncated unit cost times 10 is exact (28 digits again). -/
theorem rs_A_contrib :
    roundSig 28 ((2858333333333333333333333333:ℚ) / 100000000000000000000000000)
      = 2858333333333333333333333333 / 100000000000000000000000000 :=
  roundSig_eq_self_pos 28 _ 1 2858333333333333333333333333 (by norm_num)
    (by norm_num) (by norm_num) (by norm_num)

/-- The Decimal product 28.58333333333333333333333333 * 0.18 rounds to
5.144999999999999999999999999 (the exact product's 29th digit is 4). -/
theorem rs_A_taxmul :
    roundSig 28 ((25724999999999999999999999997:ℚ) / 5000000000000000000000000000)
      = 5144999999999999999999999999 / 1000000000000000000000000000 := by
  rw [roundSig_eval_pos 28 _ 0 (by norm_num) (by norm_num) (by norm_num)]
  norm_num [roundHalfEvenInt]

/-- Dividing 27.38 by 12 rounds up at the 28th significant digit: the repeating six
carries and gives ...667. -/
theorem rs_1369_600 : roundSig 28 ((1369:ℚ)/600)
    = 2281666666666666666666666667 / 1000000000000000000000000000 := by
  rw [roundSig_eval_pos 28 (1369/600) 0 (by norm_num) (by norm_num) (by norm_num)]
  norm_num [roundHalfEvenInt]

/-- The rounded-up unit cost times 3 is 6.845000000000000000000000001,
exact at 28 digits. -/
theorem rs_B_contrib :
    roundSig 28 ((6845000000000000000000000001:ℚ) / 1000000000000000000000000000)
      = 6845000000000000000000000001 / 1000000000000000000000000000 :=
  roundSig_eq_self_pos 28 _ 0 6845000000000000000000000001 (by norm_num)
    (by norm_num) (by norm_num) (by norm_num)

/-- Dividing 25 by 1720 truncates at the 28th significant digit (exact value
0.0145348837209302325581395348837...). -/
theorem rs_C_frac : roundSig 28 ((5:ℚ)/344)
    = 90843023255813953488372093 / 6250000000000000000000000000 := by
  rw [roundSig_eval_pos 28 (5/344) (-2) (by norm_num) (by norm_num)
    (by norm_num)]
  norm_num [roundHalfEvenInt]

/-- Multiplying the truncated fraction by 172 rounds to
2.499999999999999999999999999, strictly below 2.5. -/
theorem rs_C_mul :
    roundSig 28 ((3906249999999999999999999999:ℚ) / 1562500000000000000000000000)
      = 2499999999999999999999999999 / 1000000000000000000000000000 := by
  rw [roundSig_eval_pos 28 _ 0 (by norm_num) (by norm_num) (by norm_num)]
  norm_num [roundHalfEvenInt]

/-- Updating a key with a zero increment keeps all stored values zero. -/
theorem dec_upsert_zero_values (u : String) :
    ∀ acc : List (String × ℚ), (∀ q ∈ acc, q.2 = 0) →
      ∀ q ∈ dec_upsert acc u 0, q.2 = 0 := by
  intro acc
  induction acc with
  | nil =>
    intro _ q hq
    simp only [dec_upsert, List.mem_singleton] at hq
    subst hq
    simp [decAdd, roundSig_zero]
  | cons p rest ih =>
    intro hacc q hq
    obtain ⟨k, w⟩ := p
    have hw : w = 0 := hacc (k, w) (by simp)
    by_cases h : k = u
    · simp only [dec_upsert, if_pos h] at hq
      rcases List.mem_cons.mp hq with h1 | h1
      · subst h1
        simp [hw, decAdd, roundSig_zero]
      · exact hacc q (List.mem_cons_of_mem _ h1)
    · simp only [dec_upsert, if_neg h] at hq
      rcases List.mem_cons.mp hq with h1 | h1
      · subst h1
        exact hw
      · exact ih (fun r hr => hacc r (List.mem_cons_of_mem _ hr)) q h1

/-- With no items, every faithful contribution is zero. -/
theorem dec_contrib_nil (s : Selection) : dec_contrib [] s = 0 := by
  simp [dec_contrib, dec_per_unit, dec_lookupUnit, decMul, roundSig_zero]

/-- With no items, every accumulator value stays zero. -/
theorem dec_user_sub_nil_values (sels : List Selection) :
    ∀ acc : List (String × ℚ), (∀ q ∈ acc, q.2 = 0) →
      ∀ q ∈ sels.foldl (dec_subStep []) acc, q.2 = 0 := by
  induction sels with
  | nil =>
    intro acc h q hq
    exact h q (by simpa using hq)
  | cons s sels ih =>
    intro acc hacc
    simp only [List.foldl_cons]
    apply ih
    intro q hq
    rw [dec_subStep, dec_contrib_nil] at hq
    exact dec_upsert_zero_values _ acc hacc q hq

/-- A Decimal left fold over zero values is zero. -/
theorem foldl_decAdd_zeros :
    ∀ l : List ℚ, (∀ v ∈ l, v = 0) → l.foldl decAdd 0 = 0
  | [], _ => rfl
  | v :: l, h => by
    have hv : v = 0 := h v (by simp)
    simp only [List.foldl_cons, hv]
    have h00 : decAdd 0 0 = 0 := by simp [decAdd, roundSig_zero]
    rw [h00]
    exact foldl_decAdd_zeros l (fun w hw => h w (List.mem_cons_of_mem _ hw))

/-- With no items the faithful total subtotal is zero. -/
theorem dec_total_subtotal_nil (sels : List Selection) :
    dec_total_subtotal [] sels = 0 := by
  unfold dec_total_subtotal dec_user_sub
  apply foldl_decAdd_zeros
  intro v hv
  rcases List.mem_map.mp hv with ⟨q, hq, rfl⟩
  exact dec_user_sub_nil_values sels [] (by simp) q hq

/-- A nonzero faithful total subtotal forces a nonempty items list. -/
theorem dec_items_ne_nil_of_total (items : List LineItem)
    (sels : List Selection) (h : dec_total_subtotal items sels ≠ 0) :
    items ≠ [] := by
  intro e
  subst e
  exact h (dec_total_subtotal_nil sels)

/-- A nonzero faithful total subtotal forces a nonempty accumulator. -/
theorem dec_user_sub_ne_nil (items : List LineItem) (sels : List Selection)
    (h : dec_total_subtotal items sels ≠ 0) : dec_user_sub items sels ≠ [] := by
  intro e
  apply h
  unfold dec_total_subtotal
  rw [e]
  rfl

/-- The faithful allocation loop produces one cent amount per user. -/
theorem dec_allocGo_length (tsc tc : ℤ) :
    ∀ (cs : List ℤ) (r : ℤ), (dec_allocGo tsc tc cs r).length = cs.length
  | [], _ => by simp [dec_allocGo]
  | [_], _ => by simp [dec_allocGo]
  | c :: c2 :: rest, r => by
    simp only [dec_allocGo, List.length_cons]
    rw [dec_allocGo_length tsc tc (c2 :: rest) _]
    simp

/-- Closed form of the faithful allocation loop: every user but the last
receives the Decimal-arithmetic proportional share, the last receives the
residual of the pool total against the running sum. -/
theorem dec_allocGo_closed (tsc tc : ℤ) :
    ∀ (cs : List ℤ) (r : ℤ), cs ≠ [] →
      dec_allocGo tsc tc cs r
        = (cs.dropLast.map (dec_propShare tsc tc))
          ++ [tc - r - ((cs.dropLast.map (dec_propShare tsc tc)).sum)]
  | [], _, h => absurd rfl h
  | [c], r, _ => by
    show dec_allocGo tsc tc [c] r = _
    simp [dec_allocGo, List.dropLast_single]
  | c :: c2 :: rest, r, _ => by
    simp only [dec_allocGo]
    rw [dec_allocGo_closed tsc tc (c2 :: rest) _ (by simp)]
    have hdl : (c :: c2 :: rest).dropLast = c :: (c2 :: rest).dropLast := rfl
    rw [hdl]
    simp only [List.map_cons, List.sum_cons, List.cons_append]
    have harith : tc - (r + dec_propShare tsc tc c)
          - (List.map (dec_propShare tsc tc) (c2 :: rest).dropLast).sum
        = tc - r
          - (dec_propShare tsc tc c
             + (List.map (dec_propShare tsc tc) (c2 :: rest).dropLast).sum) := by
      omega
    rw [harith]

/-- The faithfully allocated cents of one pool sum exactly to the pool total
minus the initial running sum. -/
theorem dec_allocGo_sum (tsc tc : ℤ) (cs : List ℤ) (r : ℤ) (h : cs ≠ []) :
    (dec_allocGo tsc tc cs r).sum = tc - r := by
  rw [dec_allocGo_closed tsc tc cs r h]
  simp [List.sum_append]

/-- Both early-return guards of the faithful compute_split. -/
theorem dec_compute_split_eq_nil (items : List LineItem) (sels : List Selection)
    (tr pr : ℚ) (h : items = [] ∨ dec_total_subtotal items sels = 0) :
    dec_compute_split items sels tr pr = [] := by
  unfold dec_compute_split
  rcases h with h | h
  · rw [if_pos h]
  · by_cases hi : items = []
    · rw [if_pos hi]
    · rw [if_neg hi, if_pos h]

/-- Past both guards, the faithful compute_split is the assembled
allocation. -/
theorem dec_compute_split_pos (items : List LineItem) (sels : List Selection)
    (tr pr : ℚ) (h1 : items ≠ []) (h2 : dec_total_subtotal items sels ≠ 0) :
    dec_compute_split items sels tr pr
      = assemble (dec_user_sub items sels) (dec_sub_cents_list items sels)
          (dec_allocGo (dec_total_sub_cents items sels)
            (dec_pool_cents_total items sels tr)
            (dec_sub_cents_list items sels) 0)
          (dec_allocGo (dec_total_sub_cents items sels)
            (dec_pool_cents_total items sels pr)
            (dec_sub_cents_list items sels) 0) := by
  unfold dec_compute_split
  rw [if_neg h1, if_neg h2]

/-- There are as many faithful subtotal cent values as users. -/
theorem dec_sub_cents_list_length (items : List LineItem)
    (sels : List Selection) :
    (dec_user_sub items sels).length = (dec_sub_cents_list items sels).length := by
  simp [dec_sub_cents_list]

/-- A nonzero faithful total subtotal gives a nonempty cents list. -/
theorem dec_sub_cents_list_ne_nil (items : List LineItem)
    (sels : List Selection) (h : dec_total_subtotal items sels ≠ 0) :
    dec_sub_cents_list items sels ≠ [] := by
  intro e
  apply dec_user_sub_ne_nil items sels h
  unfold dec_sub_cents_list at e
  exact List.map_eq_nil_iff.mp e

/-- The tax fields of the faithful result are the converted tax-pool
allocation. -/
theorem dec_compute_split_map_tax (items : List LineItem)
    (sels : List Selection) (tr pr : ℚ)
    (h : dec_total_subtotal items sels ≠ 0) :
    (dec_compute_split items sels tr pr).map (fun p => p.2.tax)
      = (dec_allocGo (dec_total_sub_cents items sels)
          (dec_pool_cents_total items sels tr)
          (dec_sub_cents_list items sels) 0).map from_cents := by
  rw [dec_compute_split_pos items sels tr pr
    (dec_items_ne_nil_of_total items sels h) h]
  exact assemble_map_tax _ _ _ _ (dec_sub_cents_list_length items sels)
    (by rw [dec_allocGo_length]; exact dec_sub_cents_list_length items sels)
    (by rw [dec_allocGo_length]; exact dec_sub_cents_list_length items sels)

/-- The tip fields of the faithful result are the converted tip-pool
allocation. -/
theorem dec_compute_split_map_tip (items : List LineItem)
    (sels : List Selection) (tr pr : ℚ)
    (h : dec_total_subtotal items sels ≠ 0) :
    (dec_compute_split items sels tr pr).map (fun p => p.2.tip)
      = (dec_allocGo (dec_total_sub_cents items sels)
          (dec_pool_cents_total items sels pr)
          (dec_sub_cents_list items sels) 0).map from_cents := by
  rw [dec_compute_split_pos items sels tr pr
    (dec_items_ne_nil_of_total items sels h) h]
  exact assemble_map_tip _ _ _ _ (dec_sub_cents_list_length items sels)
    (by rw [dec_allocGo_length]; exact dec_sub_cents_list_length items sels)
    (by rw [dec_allocGo_length]; exact dec_sub_cents_list_length items sels)

/-- The faithful pool total in cents is half-up rounding of the Decimal
product of subtotal and rate, in cents. -/
theorem dec_pool_cents_total_eq (items : List LineItem) (sels : List Selection)
    (rate : ℚ) :
    dec_pool_cents_total items sels rate
      = roundHalfUpInt (decMul (dec_total_subtotal items sels) rate * 100) := by
  unfold dec_pool_cents_total
  rw [to_cents_quantize2HalfUp]

/-- The tax fields of the faithful result sum exactly to the half-up rounded
Decimal tax total. -/
theorem dec_compute_split_tax_sum (items : List LineItem)
    (sels : List Selection) (tr pr : ℚ)
    (h : dec_total_subtotal items sels ≠ 0) :
    ((dec_compute_split items sels tr pr).map (fun p => p.2.tax)).sum
      = quantize2HalfUp (decMul (dec_total_subtotal items sels) tr) := by
  rw [dec_compute_split_map_tax items sels tr pr h, sum_map_from_cents,
    dec_allocGo_sum _ _ _ _ (dec_sub_cents_list_ne_nil items sels h),
    dec_pool_cents_total_eq]
  unfold quantize2HalfUp
  norm_num

/-- The tip fields of the faithful result sum exactly to the half-up rounded
Decimal tip total. -/
theorem dec_compute_split_tip_sum (items : List LineItem)
    (sels : List Selection) (tr pr : ℚ)
    (h : dec_total_subtotal items sels ≠ 0) :
    ((dec_compute_split items sels tr pr).map (fun p => p.2.tip)).sum
      = quantize2HalfUp (decMul (dec_total_subtotal items sels) pr) := by
  rw [dec_compute_split_map_tip items sels tr pr h, sum_map_from_cents,
    dec_allocGo_sum _ _ _ _ (dec_sub_cents_list_ne_nil items sels h),
    dec_pool_cents_total_eq]
  unfold quantize2HalfUp
  norm_num

/-- The subtotal fields of the faithful result are the half-even rounded
per-user accumulated subtotals, in user order. -/
theorem dec_compute_split_map_subtotal (items : List LineItem)
    (sels : List Selection) (tr pr : ℚ)
    (h : dec_total_subtotal items sels ≠ 0) :
    (dec_compute_split items sels tr pr).map (fun p => p.2.subtotal)
      = (dec_user_sub items sels).map (fun p => quantize2HalfEven p.2) := by
  rw [dec_compute_split_pos items sels tr pr
    (dec_items_ne_nil_of_total items sels h) h,
    assemble_map_subtotal _ _ _ _ (dec_sub_cents_list_length items sels)
      (by rw [dec_allocGo_length]; exact dec_sub_cents_list_length items sels)
      (by rw [dec_allocGo_length]; exact dec_sub_cents_list_length items sels)]
  unfold dec_sub_cents_list
  rw [List.map_map]
  congr 1
  funext p
  simp only [Function.comp_apply]
  rw [to_cents_quantize2HalfEven, from_cents_eq]
  unfold quantize2HalfEven
  rfl

/-- The sum of the 2dp-rounded faithful per-user subtotals equals the
faithful subtotal cents sum divided by 100. -/
theorem dec_sum_quantize2HalfEven_eq (items : List LineItem)
    (sels : List Selection) :
    ((dec_user_sub items sels).map (fun p => quantize2HalfEven p.2)).sum
      = ((dec_sub_cents_list items sels).sum : ℚ) / 100 := by
  unfold dec_sub_cents_list
  have h := sum_quantize2HalfEven_generic
    ((dec_user_sub items sels).map Prod.snd)
  rw [List.map_map, List.map_map] at h
  simpa [Function.comp_def] using h

/-- The total fields of the faithful result sum to the rounded per-user
accumulated subtotals plus the two rounded Decimal pools. -/
theorem dec_compute_split_total_sum (items : List LineItem)
    (sels : List Selection) (tr pr : ℚ)
    (h : dec_total_subtotal items sels ≠ 0) :
    ((dec_compute_split items sels tr pr).map (fun p => p.2.total)).sum
      = ((dec_user_sub items sels).map (fun p => quantize2HalfEven p.2)).sum
        + quantize2HalfUp (decMul (dec_total_subtotal items sels) tr)
        + quantize2HalfUp (decMul (dec_total_subtotal items sels) pr) := by
  rw [dec_compute_split_pos items sels tr pr
    (dec_items_ne_nil_of_total items sels h) h,
    assemble_total_sum _ _ _ _ (dec_sub_cents_list_length items sels)
      (by rw [dec_allocGo_length]; exact dec_sub_cents_list_length items sels)
      (by rw [dec_allocGo_length]; exact dec_sub_cents_list_length items sels),
    dec_allocGo_sum _ _ _ _ (dec_sub_cents_list_ne_nil items sels h),
    dec_allocGo_sum _ _ _ _ (dec_sub_cents_list_ne_nil items sels h),
    dec_sum_quantize2HalfEven_eq, dec_pool_cents_total_eq,
    dec_pool_cents_total_eq]
  unfold quantize2HalfUp
  push_cast
  ring

/-- The two user identifiers used in concrete witnesses are distinct. -/
theorem str_ab : ("a" : String) ≠ "b" := by decide

/-- The two user identifiers used in concrete witnesses are distinct. -/
theorem str_ba : ("b" : String) ≠ "a" := by decide

/-- Counterexample to C1 as stated: item 34.30 with quantity 12, one user
selecting 10 units, tax rate 0.18.  The exact total subtotal is 343/12 and
round_half_up(343/12 * 0.18, 2dp) = 5.15, but the program's 28-digit
accumulator holds 28.58333333333333333333333333, whose Decimal product with
0.18 is 5.144999999999999999999999999, so the tax fields sum to 5.14. -/
theorem claim_C1_counterexample :
    ((dec_compute_split [⟨1, some (343/10), some 12⟩] [⟨"a", 1, some 10⟩]
        (18/100) 0).map (fun p => p.2.tax)).sum = 514/100
    ∧ total_subtotal [⟨1, some (343/10), some 12⟩] [⟨"a", 1, some 10⟩]
        = 343/12
    ∧ quantize2HalfUp ((343:ℚ)/12 * (18/100)) = 515/100
    ∧ (514/100 : ℚ) ≠ 515/100 := by
  refine ⟨?_, ?_, ?_, by norm_num⟩
  · norm_num [dec_compute_split, dec_total_subtotal, dec_user_sub, dec_subStep,
      dec_upsert, dec_contrib, dec_per_unit, dec_lookupUnit, dec_unit_cost,
      itemQty, selQty, decAdd, decMul, decDiv, rs_343_120, rs_A_contrib,
      rs_A_taxmul, roundSig_zero, dec_sub_cents_list, dec_total_sub_cents,
      dec_pool_cents_total, dec_propShare, dec_allocGo, assemble, to_cents,
      from_cents, quantize2HalfUp, quantize2HalfEven, roundHalfUpInt,
      roundHalfEvenInt]
  · norm_num [total_subtotal, user_sub, subStep, upsert, contrib, per_unit,
      unit_cost, itemQty, selQty, lookupUnit]
  · norm_num [quantize2HalfUp, roundHalfUpInt]

/-- Claim C1 as amended: for every input whose accumulated Decimal total
subtotal is non-zero, the tax fields of compute_split sum exactly to
round_half_up(total_sub * tax_rate, 2dp), where total_sub is the 28-digit
Decimal value the program accumulates and the product is the Decimal
product — there is no drift from per-user rounding; likewise the tip fields
with tip_rate.  The identity is over the program's accumulated total, not
the exact rational subtotal (which the counterexample separates). -/
theorem claim_C1_amended (items : List LineItem) (sels : List Selection)
    (tax_rate tip_rate : ℚ) (h : dec_total_subtotal items sels ≠ 0) :
    ((dec_compute_split items sels tax_rate tip_rate).map
        (fun p => p.2.tax)).sum
      = quantize2HalfUp (decMul (dec_total_subtotal items sels) tax_rate)
    ∧ ((dec_compute_split items sels tax_rate tip_rate).map
        (fun p => p.2.tip)).sum
      = quantize2HalfUp (decMul (dec_total_subtotal items sels) tip_rate) :=
  ⟨dec_compute_split_tax_sum items sels tax_rate tip_rate h,
   dec_compute_split_tip_sum items sels tax_rate tip_rate h⟩

/-- Witness for the amended C1: two users sharing one 2.50 item, tax rate
0.10, tip rate 0.20; every Decimal step is exact at this scale. -/
theorem claim_C1_witness :
    dec_total_subtotal [⟨1, some (5/2), some 1⟩]
        [⟨"a", 1, some 1⟩, ⟨"b", 1, some 1⟩] ≠ 0
    ∧ (((dec_compute_split [⟨1, some (5/2), some 1⟩]
          [⟨"a", 1, some 1⟩, ⟨"b", 1, some 1⟩] (1/10) (1/5)).map
            (fun p => p.2.tax)).sum
        = quantize2HalfUp (decMul (dec_total_subtotal [⟨1, some (5/2), some 1⟩]
            [⟨"a", 1, some 1⟩, ⟨"b", 1, some 1⟩]) (1/10))
      ∧ ((dec_compute_split [⟨1, some (5/2), some 1⟩]
          [⟨"a", 1, some 1⟩, ⟨"b", 1, some 1⟩] (1/10) (1/5)).map
            (fun p => p.2.tip)).sum
        = quantize2HalfUp (decMul (dec_total_subtotal [⟨1, some (5/2), some 1⟩]
            [⟨"a", 1, some 1⟩, ⟨"b", 1, some 1⟩]) (1/5))) :=
  ⟨by
    norm_num [str_ab, str_ba, dec_total_subtotal, dec_user_sub, dec_subStep,
      dec_upsert, dec_contrib, dec_per_unit, dec_lookupUnit, dec_unit_cost,
      itemQty, selQty, decAdd, decMul, decDiv, rs_5_2, rs_five, roundSig_zero],
   claim_C1_amended _ _ _ _ (by
    norm_num [str_ab, str_ba, dec_total_subtotal, dec_user_sub, dec_subStep,
      dec_upsert, dec_contrib, dec_per_unit, dec_lookupUnit, dec_unit_cost,
      itemQty, selQty, decAdd, decMul, decDiv, rs_5_2, rs_five, roundSig_zero])⟩

/-- Counterexample to C2 as stated, in two parts.
(i) One 0.25 item split over two users: each raw subtotal 0.125 is rounded
(half-even) to 0.12, so the totals sum to 0.24 while
round(total_subtotal, 2) = 0.25 under either rounding mode.
(ii) Item 27.38 with quantity 12, one user selecting 3 units: the totals
sum to 6.85 although half-even rounding of the exact raw subtotal 6.845 is
6.84 — the program quantizes the truncated 28-digit accumulator
6.845000000000000000000000001, so even replacing round(total_subtotal, 2)
by the sum of half-even-rounded exact per-user subtotals is still false of
the program. -/
theorem claim_C2_counterexample :
    (((dec_compute_split [⟨1, some (1/4), some 2⟩]
        [⟨"a", 1, some 1⟩, ⟨"b", 1, some 1⟩] 0 0).map
          (fun p => p.2.total)).sum = 24/100
      ∧ total_subtotal [⟨1, some (1/4), some 2⟩]
          [⟨"a", 1, some 1⟩, ⟨"b", 1, some 1⟩] = 1/4
      ∧ quantize2HalfUp ((1:ℚ)/4) = 25/100
      ∧ quantize2HalfEven ((1:ℚ)/4) = 25/100
      ∧ (24/100 : ℚ) ≠ 25/100)
    ∧ (((dec_compute_split [⟨1, some (2738/100), some 12⟩] [⟨"a", 1, some 3⟩]
          0 0).map (fun p => p.2.total)).sum = 685/100
      ∧ total_subtotal [⟨1, some (2738/100), some 12⟩] [⟨"a", 1, some 3⟩]
          = 1369/200
      ∧ quantize2HalfEven ((1369:ℚ)/200) = 684/100
      ∧ (685/100 : ℚ) ≠ 684/100) := by
  refine ⟨⟨?_, ?_, ?_, ?_, by norm_num⟩, ?_, ?_, ?_, by norm_num⟩
  · norm_num [str_ab, str_ba, dec_compute_split, dec_total_subtotal,
      dec_user_sub, dec_subStep, dec_upsert, dec_contrib, dec_per_unit,
      dec_lookupUnit, dec_unit_cost, itemQty, selQty, decAdd, decMul, decDiv,
      rs_eighth, rs_quarter, rs_half, roundSig_zero, dec_sub_cents_list,
      dec_total_sub_cents, dec_pool_cents_total, dec_propShare, dec_allocGo,
      assemble, to_cents, from_cents, quantize2HalfUp, quantize2HalfEven,
      roundHalfUpInt, roundHalfEvenInt]
  · norm_num [str_ab, str_ba, total_subtotal, user_sub, subStep, upsert,
      contrib, per_unit, unit_cost, itemQty, selQty, lookupUnit]
  · norm_num [quantize2HalfUp, roundHalfUpInt]
  · norm_num [quantize2HalfEven, roundHalfEvenInt]
  · norm_num [dec_compute_split, dec_total_subtotal, dec_user_sub, dec_subStep,
      dec_upsert, dec_contrib, dec_per_unit, dec_lookupUnit, dec_unit_cost,
      itemQty, selQty, decAdd, decMul, decDiv, rs_1369_600, rs_B_contrib,
      roundSig_zero, dec_sub_cents_list, dec_total_sub_cents,
      dec_pool_cents_total, dec_propShare, dec_allocGo, assemble, to_cents,
      from_cents, quantize2HalfUp, quantize2HalfEven, roundHalfUpInt,
      roundHalfEvenInt]
  · norm_num [total_subtotal, user_sub, subStep, upsert, contrib, per_unit,
      unit_cost, itemQty, selQty, lookupUnit]
  · norm_num [quantize2HalfEven, roundHalfEvenInt]

/-- Claim C2 as amended: for every input whose accumulated Decimal total
subtotal is non-zero, the total fields sum to the sum of the
half-even-rounded accumulated per-user subtotals plus the half-up rounded
Decimal tax and tip totals, exactly to the cent; with zero accumulated
subtotal or no items the result is empty. -/
theorem claim_C2_amended (items : List LineItem) (sels : List Selection)
    (tax_rate tip_rate : ℚ) (h : dec_total_subtotal items sels ≠ 0) :
    ((dec_compute_split items sels tax_rate tip_rate).map
        (fun p => p.2.total)).sum
      = ((dec_user_sub items sels).map (fun p => quantize2HalfEven p.2)).sum
        + quantize2HalfUp (decMul (dec_total_subtotal items sels) tax_rate)
        + quantize2HalfUp (decMul (dec_total_subtotal items sels) tip_rate) :=
  dec_compute_split_total_sum items sels tax_rate tip_rate h

/-- Witness for the amended C2 at a concrete exact-at-28-digits input. -/
theorem claim_C2_witness :
    dec_total_subtotal [⟨1, some (5/2), some 1⟩]
        [⟨"a", 1, some 1⟩, ⟨"b", 1, some 1⟩] ≠ 0
    ∧ ((dec_compute_split [⟨1, some (5/2), some 1⟩]
          [⟨"a", 1, some 1⟩, ⟨"b", 1, some 1⟩] (1/10) (1/5)).map
            (fun p => p.2.total)).sum
        = ((dec_user_sub [⟨1, some (5/2), some 1⟩]
              [⟨"a", 1, some 1⟩, ⟨"b", 1, some 1⟩]).map
                (fun p => quantize2HalfEven p.2)).sum
          + quantize2HalfUp (decMul (dec_total_subtotal
              [⟨1, some (5/2), some 1⟩]
              [⟨"a", 1, some 1⟩, ⟨"b", 1, some 1⟩]) (1/10))
          + quantize2HalfUp (decMul (dec_total_subtotal
              [⟨1, some (5/2), some 1⟩]
              [⟨"a", 1, some 1⟩, ⟨"b", 1, some 1⟩]) (1/5)) :=
  ⟨by
    norm_num [str_ab, str_ba, dec_total_subtotal, dec_user_sub, dec_subStep,
      dec_upsert, dec_contrib, dec_per_unit, dec_lookupUnit, dec_unit_cost,
      itemQty, selQty, decAdd, decMul, decDiv, rs_5_2, rs_five, roundSig_zero],
   claim_C2_amended _ _ _ _ (by
    norm_num [str_ab, str_ba, dec_total_subtotal, dec_user_sub, dec_subStep,
      dec_upsert, dec_contrib, dec_per_unit, dec_lookupUnit, dec_unit_cost,
      itemQty, selQty, decAdd, decMul, decDiv, rs_5_2, rs_five, roundSig_zero])⟩

/-- Counterexample to C3 as stated: receipt 0.25 + 16.95, two users, tax
rate 0.10.  The tax pool is 172 cents and the first user holds 25 of 1720
subtotal cents, so the claimed share is
round_half_up(172 * 25 / 1720) = round_half_up(2.5) = 3 cents; the program
computes the fraction and the product in 28-digit Decimal arithmetic,
172 * (25 / 1720) lands at 2.499999999999999999999999999, and the first
user receives 2 cents (the last user then absorbs 170). -/
theorem claim_C3_counterexample :
    (dec_compute_split [⟨1, some (1/4), some 1⟩, ⟨2, some (339/20), some 1⟩]
        [⟨"a", 1, some 1⟩, ⟨"b", 2, some 1⟩] (1/10) 0).map (fun p => p.2.tax)
      = [2/100, 170/100]
    ∧ dec_sub_cents_list [⟨1, some (1/4), some 1⟩, ⟨2, some (339/20), some 1⟩]
        [⟨"a", 1, some 1⟩, ⟨"b", 2, some 1⟩] = [25, 1695]
    ∧ dec_total_sub_cents [⟨1, some (1/4), some 1⟩, ⟨2, some (339/20), some 1⟩]
        [⟨"a", 1, some 1⟩, ⟨"b", 2, some 1⟩] = 1720
    ∧ dec_pool_cents_total [⟨1, some (1/4), some 1⟩, ⟨2, some (339/20), some 1⟩]
        [⟨"a", 1, some 1⟩, ⟨"b", 2, some 1⟩] (1/10) = 172
    ∧ roundHalfUpInt ((172:ℚ) * ((25:ℚ) / 1720)) = 3
    ∧ ((2:ℚ)/100) ≠ 3/100 := by
  refine ⟨?_, ?_, ?_, ?_, ?_, by norm_num⟩ <;>
  · norm_num [str_ab, str_ba, dec_compute_split, dec_total_subtotal,
      dec_user_sub, dec_subStep, dec_upsert, dec_contrib, dec_per_unit,
      dec_lookupUnit, dec_unit_cost, itemQty, selQty, decAdd, decMul, decDiv,
      rs_quarter, rs_1695, rs_172, rs_43_25, rs_C_frac, rs_C_mul,
      roundSig_zero, dec_sub_cents_list, dec_total_sub_cents,
      dec_pool_cents_total, dec_propShare, dec_allocGo, assemble, to_cents,
      from_cents, quantize2HalfUp, quantize2HalfEven, roundHalfUpInt,
      roundHalfEvenInt]
    try simp

/-- Claim C3 as amended: with at least two users and a non-zero accumulated
total subtotal, every user but the last (in first-appearance order)
receives tax cents
round_half_up(tax_cents_total * (user_subtotal_cents / total_sub_cents))
computed in 28-digit Decimal arithmetic — the division and the
multiplication each round their result to 28 significant digits — and the
last user receives the residual tax_cents_total minus the sum of the
previous allocations; the tip pool is allocated by the same procedure with
its own independent residual. -/
theorem claim_C3_amended (items : List LineItem) (sels : List Selection)
    (tax_rate tip_rate : ℚ) (husers : 2 ≤ (dec_user_sub items sels).length)
    (h : dec_total_subtotal items sels ≠ 0) :
    (dec_compute_split items sels tax_rate tip_rate).map (fun p => p.2.tax)
      = ((dec_sub_cents_list items sels).dropLast.map
          (fun c => from_cents (dec_propShare (dec_total_sub_cents items sels)
            (dec_pool_cents_total items sels tax_rate) c)))
        ++ [from_cents (dec_pool_cents_total items sels tax_rate
            - ((dec_sub_cents_list items sels).dropLast.map
                (dec_propShare (dec_total_sub_cents items sels)
                  (dec_pool_cents_total items sels tax_rate))).sum)]
    ∧ (dec_compute_split items sels tax_rate tip_rate).map (fun p => p.2.tip)
      = ((dec_sub_cents_list items sels).dropLast.map
          (fun c => from_cents (dec_propShare (dec_total_sub_cents items sels)
            (dec_pool_cents_total items sels tip_rate) c)))
        ++ [from_cents (dec_pool_cents_total items sels tip_rate
            - ((dec_sub_cents_list items sels).dropLast.map
                (dec_propShare (dec_total_sub_cents items sels)
                  (dec_pool_cents_total items sels tip_rate))).sum)] := by
  constructor
  · rw [dec_compute_split_map_tax items sels tax_rate tip_rate h,
      dec_allocGo_closed _ _ _ _ (dec_sub_cents_list_ne_nil items sels h),
      List.map_append, List.map_map]
    simp [Function.comp_def]
  · rw [dec_compute_split_map_tip items sels tax_rate tip_rate h,
      dec_allocGo_closed _ _ _ _ (dec_sub_cents_list_ne_nil items sels h),
      List.map_append, List.map_map]
    simp [Function.comp_def]

/-- Witness for the amended C3 at a concrete two-user input. -/
theorem claim_C3_witness :
    2 ≤ (dec_user_sub [⟨1, some (5/2), some 1⟩]
          [⟨"a", 1, some 1⟩, ⟨"b", 1, some 1⟩]).length
    ∧ dec_total_subtotal [⟨1, some (5/2), some 1⟩]
        [⟨"a", 1, some 1⟩, ⟨"b", 1, some 1⟩] ≠ 0
    ∧ ((dec_compute_split [⟨1, some (5/2), some 1⟩]
          [⟨"a", 1, some 1⟩, ⟨"b", 1, some 1⟩] (1/10) (1/5)).map
            (fun p => p.2.tax)
        = ((dec_sub_cents_list [⟨1, some (5/2), some 1⟩]
              [⟨"a", 1, some 1⟩, ⟨"b", 1, some 1⟩]).dropLast.map
            (fun c => from_cents (dec_propShare
              (dec_total_sub_cents [⟨1, some (5/2), some 1⟩]
                [⟨"a", 1, some 1⟩, ⟨"b", 1, some 1⟩])
              (dec_pool_cents_total [⟨1, some (5/2), some 1⟩]
                [⟨"a", 1, some 1⟩, ⟨"b", 1, some 1⟩] (1/10)) c)))
          ++ [from_cents (dec_pool_cents_total [⟨1, some (5/2), some 1⟩]
                [⟨"a", 1, some 1⟩, ⟨"b", 1, some 1⟩] (1/10)
              - ((dec_sub_cents_list [⟨1, some (5/2), some 1⟩]
                    [⟨"a", 1, some 1⟩, ⟨"b", 1, some 1⟩]).dropLast.map
                  (dec_propShare
                    (dec_total_sub_cents [⟨1, some (5/2), some 1⟩]
                      [⟨"a", 1, some 1⟩, ⟨"b", 1, some 1⟩])
                    (dec_pool_cents_total [⟨1, some (5/2), some 1⟩]
                      [⟨"a", 1, some 1⟩, ⟨"b", 1, some 1⟩] (1/10)))).sum)]) :=
  ⟨by
    norm_num [str_ab, str_ba, dec_user_sub, dec_subStep, dec_upsert,
      dec_contrib, dec_per_unit, dec_lookupUnit, dec_unit_cost, itemQty,
      selQty, decAdd, decMul, decDiv, rs_5_2, rs_five, roundSig_zero],
   by
    norm_num [str_ab, str_ba, dec_total_subtotal, dec_user_sub, dec_subStep,
      dec_upsert, dec_contrib, dec_per_unit, dec_lookupUnit, dec_unit_cost,
      itemQty, selQty, decAdd, decMul, decDiv, rs_5_2, rs_five, roundSig_zero],
   (claim_C3_amended _ _ _ (1/5)
      (by
        norm_num [str_ab, str_ba, dec_user_sub, dec_subStep, dec_upsert,
          dec_contrib, dec_per_unit, dec_lookupUnit, dec_unit_cost, itemQty,
          selQty, decAdd, decMul, decDiv, rs_5_2, rs_five, roundSig_zero])
      (by
        norm_num [str_ab, str_ba, dec_total_subtotal, dec_user_sub,
          dec_subStep, dec_upsert, dec_contrib, dec_per_unit, dec_lookupUnit,
          dec_unit_cost, itemQty, selQty, decAdd, decMul, decDiv, rs_5_2,
          rs_five, roundSig_zero])).1⟩

/-- Claim C4: compute_split returns the empty mapping when the items list is
empty and when the exact accumulated total subtotal is zero; both guards are
ordinary returns, not errors. -/
theorem claim_C4 (items : List LineItem) (sels : List Selection)
    (tax_rate tip_rate : ℚ)
    (h : items = [] ∨ total_subtotal items sels = 0) :
    compute_split items sels tax_rate tip_rate = [] :=
  compute_split_eq_nil items sels tax_rate tip_rate h

/-- Witness for C4 at a concrete input whose only selection has quantity
zero, so the total subtotal is zero with a nonempty items list. -/
theorem claim_C4_witness :
    ([⟨1, some 5, some 1⟩] = ([] : List LineItem)
      ∨ total_subtotal [⟨1, some 5, some 1⟩] [⟨"a", 1, some 0⟩] = 0)
    ∧ compute_split [⟨1, some 5, some 1⟩] [⟨"a", 1, some 0⟩] (1/10) (1/5)
        = [] :=
  ⟨Or.inr (by
    norm_num [str_ab, str_ba, total_subtotal, user_sub, subStep, upsert, contrib, per_unit,
      unit_cost, itemQty, selQty, lookupUnit]),
   claim_C4 _ _ _ _ (Or.inr (by
    norm_num [str_ab, str_ba, total_subtotal, user_sub, subStep, upsert, contrib, per_unit,
      unit_cost, itemQty, selQty, lookupUnit]))⟩

/-- Counterexample to C5 as stated: the item {id 1, total_price 5,
quantity 0} has unit cost 5, not 0.  The `or 1` on line 146 maps the zero
quantity to 1 before the division guard on line 148 can ever see a zero, so
the guard is dead and the item is priced at total_price per unit; the full
function then charges the selecting user 5.00. -/
theorem claim_C5_counterexample :
    unit_cost ⟨1, some 5, some 0⟩ = 5
    ∧ (5 : ℚ) ≠ 0
    ∧ compute_split [⟨1, some 5, some 0⟩] [⟨"a", 1, some 1⟩] 0 0
        = [("a", ⟨5, 0, 0, 5⟩)] := by
  refine ⟨by norm_num [unit_cost, itemQty], by norm_num, ?_⟩
  norm_num [compute_split, total_subtotal, user_sub, subStep, upsert, contrib,
    per_unit, unit_cost, itemQty, selQty, lookupUnit, sub_cents_list,
    total_sub_cents, pool_cents_total, propShare, allocGo, assemble, to_cents,
    from_cents, quantize2HalfUp, quantize2HalfEven, roundHalfUpInt,
    roundHalfEvenInt]

/-- Claim C5 as amended: the effective quantity of an item is never zero —
a stored quantity of 0 (like an absent or None one) is replaced by 1 — so
the per-unit cost is always total_price divided by the effective quantity,
no division by zero occurs, and an item whose quantity equals 0 gets
per-unit cost total_price / 1 = total_price (not 0). -/
theorem claim_C5_amended (i : LineItem) :
    itemQty i ≠ 0
    ∧ unit_cost i = i.total_price.getD 0 / itemQty i
    ∧ (i.quantity = some 0 → unit_cost i = i.total_price.getD 0) := by
  have hq : itemQty i ≠ 0 := by
    unfold itemQty
    by_cases h : i.quantity.getD 1 = 0
    · rw [if_pos h]
      norm_num
    · rw [if_neg h]
      exact h
  refine ⟨hq, ?_, ?_⟩
  · unfold unit_cost
    rw [if_pos hq]
  · intro h0
    unfold unit_cost
    rw [if_pos hq]
    have h1 : itemQty i = 1 := by
      simp [itemQty, h0]
    rw [h1, div_one]

/-- Witness for the amended C5: the inner hypothesis is discharged at the
concrete zero-quantity item, whose unit cost evaluates to its full price. -/
theorem claim_C5_witness : unit_cost ⟨1, some 5, some 0⟩ = 5 := by
  have h := (claim_C5_amended ⟨1, some 5, some 0⟩).2.2 rfl
  simpa using h

/-- Counterexample to C6 as stated: a selection with an absent
quantity_selected contributes one unit, not zero.  Line 156 defaults the
missing key to 1 (not 0), so the selection {user "a", item 1} with no
quantity key contributes the full 5.00 unit price. -/
theorem claim_C6_counterexample :
    contrib [⟨1, some 5, some 1⟩] ⟨"a", 1, none⟩ = 5
    ∧ (5 : ℚ) ≠ 0
    ∧ (compute_split [⟨1, some 5, some 1⟩] [⟨"a", 1, none⟩] 0 0).map
        (fun p => p.2.subtotal) = [5] := by
  refine ⟨by norm_num [contrib, per_unit, lookupUnit, unit_cost, itemQty,
    selQty], by norm_num, ?_⟩
  norm_num [compute_split, total_subtotal, user_sub, subStep, upsert, contrib,
    per_unit, unit_cost, itemQty, selQty, lookupUnit, sub_cents_list,
    total_sub_cents, pool_cents_total, propShare, allocGo, assemble, to_cents,
    from_cents, quantize2HalfUp, quantize2HalfEven, roundHalfUpInt,
    roundHalfEvenInt]

/-- Claim C6 as amended: a selection with quantity_selected present and zero
contributes nothing; a selection with the key absent is treated as quantity
1 and contributes one unit price (not zero). -/
theorem claim_C6_amended (items : List LineItem) (s : Selection) :
    (s.quantity_selected = some 0 → contrib items s = 0)
    ∧ (s.quantity_selected = none →
        contrib items s = per_unit items s.item_id) := by
  constructor
  · intro h
    unfold contrib selQty
    rw [h]
    simp
  · intro h
    unfold contrib selQty
    rw [h]
    simp

/-- Witness for the amended C6: the explicit-zero hypothesis is discharged
at a concrete selection, which contributes nothing. -/
theorem claim_C6_witness :
    contrib [⟨1, some 5, some 1⟩] ⟨"a", 1, some 0⟩ = 0 :=
  (claim_C6_amended [⟨1, some 5, some 1⟩] ⟨"a", 1, some 0⟩).1 rfl

/-- Counterexample to C7 as stated, in two parts.
(i) Rounding mode: a single user with raw subtotal 0.125 (one unit of a
0.25 item with quantity 2) is shown 0.12 — the per-user quantize on line
173 has no rounding argument and uses the context default ROUND_HALF_EVEN,
while round-half-up of 0.125 is 0.13.
(ii) Rounded operand: for item 27.38 with quantity 12 and 3 units selected
the shown subtotal is 6.85, although half-even rounding of the exact raw
subtotal 6.845 is 6.84 — what is quantized is the 28-digit truncated
accumulator 6.845000000000000000000000001, not the exact raw subtotal. -/
theorem claim_C7_counterexample :
    ((dec_compute_split [⟨1, some (1/4), some 2⟩] [⟨"a", 1, some 1⟩] 0 0).map
        (fun p => p.2.subtotal) = [12/100]
      ∧ total_subtotal [⟨1, some (1/4), some 2⟩] [⟨"a", 1, some 1⟩] = 1/8
      ∧ quantize2HalfUp ((1:ℚ)/8) = 13/100
      ∧ (12/100 : ℚ) ≠ 13/100)
    ∧ ((dec_compute_split [⟨1, some (2738/100), some 12⟩] [⟨"a", 1, some 3⟩]
          0 0).map (fun p => p.2.subtotal) = [685/100]
      ∧ total_subtotal [⟨1, some (2738/100), some 12⟩] [⟨"a", 1, some 3⟩]
          = 1369/200
      ∧ quantize2HalfEven ((1369:ℚ)/200) = 684/100
      ∧ (685/100 : ℚ) ≠ 684/100) := by
  refine ⟨⟨?_, ?_, ?_, by norm_num⟩, ?_, ?_, ?_, by norm_num⟩
  · norm_num [dec_compute_split, dec_total_subtotal, dec_user_sub, dec_subStep,
      dec_upsert, dec_contrib, dec_per_unit, dec_lookupUnit, dec_unit_cost,
      itemQty, selQty, decAdd, decMul, decDiv, rs_eighth, roundSig_zero,
      dec_sub_cents_list, dec_total_sub_cents, dec_pool_cents_total,
      dec_propShare, dec_allocGo, assemble, to_cents, from_cents,
      quantize2HalfUp, quantize2HalfEven, roundHalfUpInt, roundHalfEvenInt]
  · norm_num [total_subtotal, user_sub, subStep, upsert, contrib, per_unit,
      unit_cost, itemQty, selQty, lookupUnit]
  · norm_num [quantize2HalfUp, roundHalfUpInt]
  · norm_num [dec_compute_split, dec_total_subtotal, dec_user_sub, dec_subStep,
      dec_upsert, dec_contrib, dec_per_unit, dec_lookupUnit, dec_unit_cost,
      itemQty, selQty, decAdd, decMul, decDiv, rs_1369_600, rs_B_contrib,
      roundSig_zero, dec_sub_cents_list, dec_total_sub_cents,
      dec_pool_cents_total, dec_propShare, dec_allocGo, assemble, to_cents,
      from_cents, quantize2HalfUp, quantize2HalfEven, roundHalfUpInt,
      roundHalfEvenInt]
  · norm_num [total_subtotal, user_sub, subStep, upsert, contrib, per_unit,
      unit_cost, itemQty, selQty, lookupUnit]
  · norm_num [quantize2HalfEven, roundHalfEvenInt]

/-- Claim C7 as amended: each per-user displayed subtotal is the
ROUND_HALF_EVEN 2dp rounding (the context default — not half-up) of that
user's accumulated 28-digit Decimal subtotal, before conversion to integer
cents; tax_total and tip_total are rounded with round-half-up from the
Decimal product of the accumulated total with the rate. -/
theorem claim_C7_amended (items : List LineItem) (sels : List Selection)
    (tax_rate tip_rate : ℚ) (h : dec_total_subtotal items sels ≠ 0) :
    (dec_compute_split items sels tax_rate tip_rate).map
        (fun p => p.2.subtotal)
        = (dec_user_sub items sels).map (fun p => quantize2HalfEven p.2)
    ∧ ((dec_compute_split items sels tax_rate tip_rate).map
          (fun p => p.2.tax)).sum
        = quantize2HalfUp (decMul (dec_total_subtotal items sels) tax_rate)
    ∧ ((dec_compute_split items sels tax_rate tip_rate).map
          (fun p => p.2.tip)).sum
        = quantize2HalfUp (decMul (dec_total_subtotal items sels) tip_rate) :=
  ⟨dec_compute_split_map_subtotal items sels tax_rate tip_rate h,
   dec_compute_split_tax_sum items sels tax_rate tip_rate h,
   dec_compute_split_tip_sum items sels tax_rate tip_rate h⟩

/-- Witness for the amended C7 at the concrete tie input 0.125. -/
theorem claim_C7_witness :
    dec_total_subtotal [⟨1, some (1/4), some 2⟩] [⟨"a", 1, some 1⟩] ≠ 0
    ∧ ((dec_compute_split [⟨1, some (1/4), some 2⟩] [⟨"a", 1, some 1⟩]
          (1/10) (1/5)).map (fun p => p.2.subtotal)
        = (dec_user_sub [⟨1, some (1/4), some 2⟩] [⟨"a", 1, some 1⟩]).map
            (fun p => quantize2HalfEven p.2)
      ∧ ((dec_compute_split [⟨1, some (1/4), some 2⟩] [⟨"a", 1, some 1⟩]
            (1/10) (1/5)).map (fun p => p.2.tax)).sum
          = quantize2HalfUp (decMul (dec_total_subtotal
              [⟨1, some (1/4), some 2⟩] [⟨"a", 1, some 1⟩]) (1/10))
      ∧ ((dec_compute_split [⟨1, some (1/4), some 2⟩] [⟨"a", 1, some 1⟩]
            (1/10) (1/5)).map (fun p => p.2.tip)).sum
          = quantize2HalfUp (decMul (dec_total_subtotal
              [⟨1, some (1/4), some 2⟩] [⟨"a", 1, some 1⟩]) (1/5))) :=
  ⟨by
    norm_num [dec_total_subtotal, dec_user_sub, dec_subStep, dec_upsert,
      dec_contrib, dec_per_unit, dec_lookupUnit, dec_unit_cost, itemQty,
      selQty, decAdd, decMul, decDiv, rs_eighth, roundSig_zero],
   claim_C7_amended _ _ _ _ (by
    norm_num [dec_total_subtotal, dec_user_sub, dec_subStep, dec_upsert,
      dec_contrib, dec_per_unit, dec_lookupUnit, dec_unit_cost, itemQty,
      selQty, decAdd, decMul, decDiv, rs_eighth, roundSig_zero])⟩

/-- A lookup over items none of which carry the wanted id returns the
default 0. -/
theorem lookupUnit_eq_zero (iid : ℕ) :
    ∀ l : List LineItem, (∀ i ∈ l, i.id ≠ iid) → lookupUnit l iid = 0
  | [], _ => rfl
  | i :: rest, h => by
    unfold lookupUnit
    rw [if_neg (h i (List.mem_cons_self i rest))]
    exact lookupUnit_eq_zero iid rest (fun j hj => h j (List.mem_cons_of_mem i hj))

/-- Claim C8: a selection whose item_id matches no item resolves to the
per_unit default 0 and contributes zero to its user's subtotal; the lookup
is total, so nothing is raised. -/
theorem claim_C8 (items : List LineItem) (s : Selection)
    (h : ∀ i ∈ items, i.id ≠ s.item_id) :
    per_unit items s.item_id = 0 ∧ contrib items s = 0 := by
  have hp : per_unit items s.item_id = 0 := by
    unfold per_unit
    exact lookupUnit_eq_zero _ _ (fun i hi => h i (List.mem_reverse.mp hi))
  refine ⟨hp, ?_⟩
  unfold contrib
  rw [hp]
  ring

/-- Witness for C8: a selection of the unknown item id 2 against a catalogue
holding only item id 1. -/
theorem claim_C8_witness :
    (∀ i ∈ [(⟨1, some 5, some 1⟩ : LineItem)], i.id ≠ 2)
    ∧ per_unit [⟨1, some 5, some 1⟩] 2 = 0
    ∧ contrib [⟨1, some 5, some 1⟩] ⟨"a", 2, some 1⟩ = 0 := by
  have h : ∀ i ∈ [(⟨1, some 5, some 1⟩ : LineItem)], i.id ≠ 2 := by
    intro i hi
    simp only [List.mem_singleton] at hi
    subst hi
    decide
  have h8 := claim_C8 [⟨1, some 5, some 1⟩] ⟨"a", 2, some 1⟩ h
  exact ⟨h, h8.1, h8.2⟩

/-- Claim C9: compute_split is a pure function of its four arguments; equal
inputs (same items, same selection order, same rates) give equal results. -/
theorem claim_C9 (items₁ items₂ : List LineItem) (sels₁ sels₂ : List Selection)
    (tr₁ tr₂ pr₁ pr₂ : ℚ) (hi : items₁ = items₂) (hs : sels₁ = sels₂)
    (ht : tr₁ = tr₂) (hp : pr₁ = pr₂) :
    compute_split items₁ sels₁ tr₁ pr₁ = compute_split items₂ sels₂ tr₂ pr₂ := by
  subst hi
  subst hs
  subst ht
  subst hp
  rfl

/-- Witness for C9 at a concrete input. -/
theorem claim_C9_witness :
    compute_split [⟨1, some 5, some 1⟩] [⟨"a", 1, some 1⟩] (1/10) (1/5)
      = compute_split [⟨1, some 5, some 1⟩] [⟨"a", 1, some 1⟩] (1/10) (1/5) :=
  claim_C9 _ _ _ _ _ _ _ _ rfl rfl rfl rfl

/-- Claim C10: whenever the result is non-empty its key list is exactly the
user_email values of the selections in first-appearance order — a user all
of whose selections contribute zero still has a key (and, being in the user
order, takes part in the allocation of C3, including the residual when
last). -/
theorem claim_C10 (items : List LineItem) (sels : List Selection)
    (tax_rate tip_rate : ℚ)
    (h : compute_split items sels tax_rate tip_rate ≠ []) :
    (compute_split items sels tax_rate tip_rate).map Prod.fst
      = dedupFirst (sels.map Selection.user_email) := by
  have hi : items ≠ [] := by
    intro e
    exact h (compute_split_eq_nil items sels _ _ (Or.inl e))
  have hts : total_subtotal items sels ≠ 0 := by
    intro e
    exact h (compute_split_eq_nil items sels _ _ (Or.inr e))
  exact compute_split_map_fst items sels _ _ hi hts

/-- Witness for C10: user "b" selects only a zero quantity yet appears in
the key list after "a". -/
theorem claim_C10_witness :
    compute_split [⟨1, some 5, some 1⟩]
        [⟨"a", 1, some 1⟩, ⟨"b", 1, some 0⟩] (1/10) (1/5) ≠ []
    ∧ (compute_split [⟨1, some 5, some 1⟩]
        [⟨"a", 1, some 1⟩, ⟨"b", 1, some 0⟩] (1/10) (1/5)).map Prod.fst
      = dedupFirst ([⟨"a", 1, some 1⟩, ⟨"b", 1, some 0⟩].map
          Selection.user_email) :=
  ⟨by
    norm_num [str_ab, str_ba, compute_split, total_subtotal, user_sub, subStep,
      upsert, contrib, per_unit, unit_cost, itemQty, selQty, lookupUnit,
      sub_cents_list, total_sub_cents, pool_cents_total, propShare, allocGo,
      assemble, to_cents, from_cents, quantize2HalfUp, quantize2HalfEven,
      roundHalfUpInt, roundHalfEvenInt]
    exact List.cons_ne_nil _ _,
   claim_C10 _ _ _ _ (by
    norm_num [str_ab, str_ba, compute_split, total_subtotal, user_sub, subStep,
      upsert, contrib, per_unit, unit_cost, itemQty, selQty, lookupUnit,
      sub_cents_list, total_sub_cents, pool_cents_total, propShare, allocGo,
      assemble, to_cents, from_cents, quantize2HalfUp, quantize2HalfEven,
      roundHalfUpInt, roundHalfEvenInt]
    exact List.cons_ne_nil _ _)⟩

end Pay4
